import Mathlib

/-!
Verification of the scikit-network clustering sources (`bilouvain.py`, `kmeans.py`)
against their natural-language specification.

The two Python source files are embedded shallowly: pure functions become Lean
functions over `ℚ`-weighted graphs (`Fin n → Fin n → ℚ`), label vectors become
`List ℕ`, fallible construction returns `Except`.  Components the sources pull
in but whose code is not part of the reviewed tree (the Louvain driver, the
aggregation engine, `reindex_clusters`, `check_probs`, `check_engine`,
`bipartite2undirected`, `bipartite2directed`, the embedding / dense-k-means
collaborators) are modelled from the specification, as marked on each
definition.
-/

set_option maxHeartbeats 1000000

namespace Sknetwork

/-! ## Cluster reindexing (spec section 4.5)

Modelled from the spec: `reindex_clusters` is imported from
`sknetwork.clustering.postprocessing`, which is not part of the reviewed
sources.  Per the spec, clusters are ordered by descending size, ties broken by
the smallest original node index at which the cluster appears, and renumbered
densely from 0. -/

/-- Number of nodes carrying label `v` in the label vector `L`. -/
def clusterSize (L : List ℕ) (v : ℕ) : ℕ := L.count v

/-- First position at which label `v` occurs in `L` (`L.length` if absent). -/
def firstIndex (L : List ℕ) (v : ℕ) : ℕ := L.indexOf v

/-- Modelled from the spec: the strict order in which clusters are renumbered:
`w` comes before `v` when `w` has strictly larger size, or equal size and an
earlier first occurrence. -/
def clusterBefore (L : List ℕ) (w v : ℕ) : Prop :=
  clusterSize L v < clusterSize L w ∨
    (clusterSize L w = clusterSize L v ∧ firstIndex L w < firstIndex L v)

instance (L : List ℕ) (w v : ℕ) : Decidable (clusterBefore L w v) :=
  inferInstanceAs (Decidable (_ ∨ _ ∧ _))

/-- New identifier assigned to the cluster labelled `v`: the number of distinct
clusters of `L` that come before it in the `clusterBefore` order. -/
def clusterRank (L : List ℕ) (v : ℕ) : ℕ :=
  (L.toFinset.filter (fun w => clusterBefore L w v)).card

/-- Modelled from the spec: the Cluster Reindexer, a pure function renumbering
cluster identifiers by descending cluster size with first-occurrence
tie-breaking, producing a dense labeling starting at 0. -/
def reindex_clusters (L : List ℕ) : List ℕ := L.map (clusterRank L)

/-! ## Errors and configuration (`BiLouvain.__init__`, source lines 80-103) -/

/-- The Python exception kinds raised by the embedded code. -/
inductive PyError where
  | typeError (msg : String)
  | valueError (msg : String)
deriving DecidableEq, Repr

/-- Modelled from the spec: an optimizer object with the capability surface the
driver requires (`fit`, `score_`, `labels_`); represented abstractly by its
identifying data. -/
structure Optimizer where
  kind : String
  resolution : ℚ
  tol : ℚ
  engine : String
deriving DecidableEq, Repr

/-- Modelled from the spec: the greedy modularity optimization algorithm
selected by `algorithm = 'default'`. -/
def GreedyModularity (resolution tol : ℚ) (engine : String) : Optimizer :=
  { kind := "greedy_modularity", resolution := resolution, tol := tol, engine := engine }

/-- The runtime value passed as the `algorithm` argument: a string, an
`Optimizer` instance, or any other Python object. -/
inductive AlgoArg where
  | str (s : String)
  | optimizer (o : Optimizer)
  | otherObject
deriving DecidableEq, Repr

/-- The runtime value passed as `max_agg_iter`, tagged by its exact Python
type: `int`, or anything whose `type` is not `int`. -/
inductive MaxIterArg where
  | int (m : ℤ)
  | nonInt (descr : String)
deriving DecidableEq, Repr

/-- Modelled from the spec: `check_engine` accepts `'default'`, `'python'` or
`'numba'` (source docstring) and rejects anything else; `'default'` resolves to
an available engine, modelled here as `'python'`. -/
def check_engine (engine : String) : Except PyError String :=
  if engine = "default" then Except.ok "python"
  else if engine = "python" then Except.ok "python"
  else if engine = "numba" then Except.ok "numba"
  else Except.error (PyError.valueError "Engine unknown.")

/-- Modelled from the spec: `check_random_state` turns a seed into the random
state stored on the object; determinism is controlled entirely by the seed, so
the state is modelled as the seed itself. -/
def check_random_state (seed : Option ℤ) : Option ℤ := seed

/-- The attributes of a constructed `BiLouvain` object (source lines 83-103).
Output attributes start as `none`, mirroring the `None` initialisations. -/
structure BiLouvainState where
  random_state : Option ℤ
  algorithm : Optimizer
  resolution : ℚ
  tol : ℚ
  agg_tol : ℚ
  max_agg_iter : ℤ
  engine : String
  verbose : Bool
  labels_ : Option (List ℕ)
  feature_labels_ : Option (List ℕ)
  iteration_count_ : Option ℕ
  aggregate_graph_ : Option (ℕ → ℕ → ℚ)
  score_ : Option ℚ
  n_clusters_ : Option ℕ

/-- `BiLouvain.__init__` (source lines 80-103): validate the random state,
dispatch on the `algorithm` argument (with `check_engine` consulted inside the
`'default'` branch), reject a `max_agg_iter` whose type is not `int`, then
validate the engine and populate the attributes.  No graph or matrix is
touched. -/
def biLouvainInit (engine : String) (algorithm : AlgoArg) (resolution tol agg_tol : ℚ)
    (max_agg_iter : MaxIterArg) (random_state : Option ℤ) (verbose : Bool) :
    Except PyError BiLouvainState :=
  let rs := check_random_state random_state
  match (match algorithm with
         | AlgoArg.str s =>
             if s = "default"
               then (check_engine engine).map (fun e => GreedyModularity resolution tol e)
               else Except.error (PyError.typeError "Algorithm must be default or a valid algorithm.")
         | AlgoArg.optimizer o => Except.ok o
         | AlgoArg.otherObject =>
             Except.error (PyError.typeError "Algorithm must be default or a valid algorithm.")) with
  | Except.error e => Except.error e
  | Except.ok algo =>
    match max_agg_iter with
    | MaxIterArg.nonInt _ =>
        Except.error (PyError.typeError "The maximum number of iterations must be an integer.")
    | MaxIterArg.int m =>
      match check_engine engine with
      | Except.error e => Except.error e
      | Except.ok eng =>
        Except.ok { random_state := rs, algorithm := algo, resolution := resolution, tol := tol,
                    agg_tol := agg_tol, max_agg_iter := m, engine := eng, verbose := verbose,
                    labels_ := none, feature_labels_ := none, iteration_count_ := none,
                    aggregate_graph_ := none, score_ := none, n_clusters_ := none }

/-! ## Weight vectors and graph constructions (`BiLouvain.fit`, source lines 105-149) -/

/-- The `weights` / `feature_weights` argument: a named null-model spec or a
custom weight vector. -/
inductive WeightSpec where
  | degree
  | uniform
  | custom (v : List ℚ)
deriving DecidableEq, Repr

/-- Normalisation of a non-negative vector into a probability vector. -/
def normalizeProbs (v : List ℚ) : List ℚ :=
  if v.sum = 0 then v else v.map (fun x => x / v.sum)

/-- Row marginals of a rectangular weighted matrix. -/
def rowMargins {a b : ℕ} (M : Fin a → Fin b → ℚ) : List ℚ :=
  List.ofFn (fun i => ∑ j, M i j)

/-- Modelled from the spec: the Weighting utility `check_probs` converts a
requested null-model spec (`degree`, `uniform`, or explicit weights) into a
validated probability vector over the rows of its matrix argument. -/
def check_probs {a b : ℕ} (spec : WeightSpec) (M : Fin a → Fin b → ℚ) : List ℚ :=
  match spec with
  | WeightSpec.degree => normalizeProbs (rowMargins M)
  | WeightSpec.uniform => normalizeProbs (List.replicate a 1)
  | WeightSpec.custom v => normalizeProbs v

/-- Transpose of a biadjacency matrix. -/
def transposeMat {a b : ℕ} (M : Fin a → Fin b → ℚ) : Fin b → Fin a → ℚ :=
  fun j i => M i j

/-- Modelled from the spec: `bipartite2undirected` symmetrises a biadjacency
matrix into an undirected graph over `n + p` nodes with block structure:
rows occupy ids `0..n-1`, columns ids `n..n+p-1`, the biadjacency in the
row-to-column block and its transpose in the column-to-row block. -/
def bipartite2undirected {n p : ℕ} (B : Fin n → Fin p → ℚ) :
    Fin (n + p) → Fin (n + p) → ℚ := fun i j =>
  if hi : (i : ℕ) < n then
    if hj : (j : ℕ) < n then 0
    else B ⟨i, hi⟩ ⟨(j : ℕ) - n, by have h := j.isLt; omega⟩
  else
    if hj : (j : ℕ) < n then B ⟨j, hj⟩ ⟨(i : ℕ) - n, by have h := i.isLt; omega⟩
    else 0

/-- Modelled from the spec: `bipartite2directed` builds a directed graph over
`n + p` nodes that only has edges in the row-to-column direction (and its
transpose for column-to-row); there are no row-row or column-column edges. -/
def bipartite2directed {n p : ℕ} (B : Fin n → Fin p → ℚ) :
    Fin (n + p) → Fin (n + p) → ℚ := fun i j =>
  if hi : (i : ℕ) < n then
    if hj : (j : ℕ) < n then 0
    else B ⟨i, hi⟩ ⟨(j : ℕ) - n, by have h := j.isLt; omega⟩
  else
    if hj : (j : ℕ) < n then B ⟨j, hj⟩ ⟨(i : ℕ) - n, by have h := i.isLt; omega⟩
    else 0

/-- Total edge weight of a weighted graph: the sum of all adjacency entries
(`adjacency.data.sum()`). -/
def totalWeight {m : ℕ} (A : Fin m → Fin m → ℚ) : ℚ := ∑ i, ∑ j, A i j

/-! ## The Louvain driver interface (spec section 4.3)

The Louvain driver (`sknetwork.clustering.louvain.Louvain`) is not part of the
reviewed sources; `BiLouvain.fit` only consumes its result surface.  It is
modelled from the spec as an oracle: any function from the constructed
adjacency and the two null-model weight vectors (plus the stored optimizer and
verbosity) to a result record. -/

/-- Modelled from the spec: the outputs of a Louvain driver run consumed by
`BiLouvain.fit`: a label per node of the graph it was given, the number of
distinct labels, the aggregation count, and the final aggregate graph. -/
structure LouvainResult where
  labels_ : List ℕ
  n_clusters_ : ℕ
  iteration_count_ : ℕ
  aggregate_graph_ : ℕ → ℕ → ℚ

/-- The Louvain driver as an oracle over `n + p` nodes. -/
def LouvainDriver (n p : ℕ) : Type :=
  Optimizer → Bool → (Fin (n + p) → Fin (n + p) → ℚ) → List ℚ → List ℚ → LouvainResult

/-- The attributes `BiLouvain.fit` populates (source lines 142-149).  `score_`
is documented but never assigned by `fit`, hence stays `none`. -/
structure FitResult where
  labels_ : List ℕ
  feature_labels_ : List ℕ
  n_clusters_ : ℕ
  iteration_count_ : ℕ
  aggregate_graph_ : ℕ → ℕ → ℚ
  score_ : Option ℚ

/-- Post-processing of the driver result (source lines 142-149): optionally
reindex the labels, split them at index `n`, and rescale the aggregate graph by
the total edge weight of the constructed adjacency. -/
def finishFit (n : ℕ) (sorted_cluster : Bool) (res : LouvainResult) (adjTotal : ℚ) :
    FitResult :=
  let labels := if sorted_cluster then reindex_clusters res.labels_ else res.labels_
  { labels_ := labels.take n
    feature_labels_ := labels.drop n
    n_clusters_ := res.n_clusters_
    iteration_count_ := res.iteration_count_
    aggregate_graph_ := fun c1 c2 => res.aggregate_graph_ c1 c2 * adjTotal
    score_ := none }

/-- The single weight vector of the `force_undirected` branch: the row and
column probability vectors concatenated, then re-validated over the
symmetrised adjacency (source lines 131-134). -/
def undirectedWeights {n p : ℕ} (B : Fin n → Fin p → ℚ) (w fw : WeightSpec) : List ℚ :=
  normalizeProbs (check_probs w B ++ check_probs fw (transposeMat B))

/-- Row-side weights of the directed branch: validated row probabilities
zero-padded over the `p` column positions (source line 138). -/
def directedSampleWeights {n : ℕ} (p : ℕ) {q : ℕ} (B : Fin n → Fin q → ℚ)
    (w : WeightSpec) : List ℚ :=
  check_probs w B ++ List.replicate p 0

/-- Column-side weights of the directed branch: validated column probabilities
zero-padded over the `n` row positions (source line 139). -/
def directedFeatureWeights (n : ℕ) {p q : ℕ} (B : Fin q → Fin p → ℚ)
    (fw : WeightSpec) : List ℚ :=
  List.replicate n 0 ++ check_probs fw (transposeMat B)

/-- The adjacency `BiLouvain.fit` constructs over the `n + p` nodes: the
undirected symmetrisation when `force_undirected`, the directed construction
otherwise. -/
def constructedAdjacency {n p : ℕ} (B : Fin n → Fin p → ℚ) (force_undirected : Bool) :
    Fin (n + p) → Fin (n + p) → ℚ :=
  if force_undirected then bipartite2undirected B else bipartite2directed B

/-- The driver invocation `BiLouvain.fit` performs: on the undirected branch a
single weight vector serves both weight roles; on the directed branch the two
zero-padded vectors are passed. -/
def driverResultOf (n p : ℕ) (algorithm : Optimizer) (verbose : Bool)
    (B : Fin n → Fin p → ℚ) (driver : LouvainDriver n p) (w fw : WeightSpec)
    (force_undirected : Bool) : LouvainResult :=
  if force_undirected then
    driver algorithm verbose (bipartite2undirected B)
      (undirectedWeights B w fw) (undirectedWeights B w fw)
  else
    driver algorithm verbose (bipartite2directed B)
      (directedSampleWeights p B w) (directedFeatureWeights n B fw)

/-- `BiLouvain.fit` (source lines 105-149): build the graph over `n + p` nodes
and the weight vectors according to `force_undirected`, run the Louvain
driver, optionally reindex the returned labels, split them at index `n`, and
rescale the driver aggregate graph by `adjacency.data.sum()`. -/
def biLouvainFit (n p : ℕ) (algorithm : Optimizer) (verbose : Bool)
    (B : Fin n → Fin p → ℚ) (driver : LouvainDriver n p)
    (weights feature_weights : WeightSpec) (force_undirected sorted_cluster : Bool) :
    FitResult :=
  if force_undirected then
    let adjacency := bipartite2undirected B
    let samp_weights := check_probs weights B
    let feat_weights := check_probs feature_weights (transposeMat B)
    let allWeights := normalizeProbs (samp_weights ++ feat_weights)
    finishFit n sorted_cluster (driver algorithm verbose adjacency allWeights allWeights)
      (totalWeight adjacency)
  else
    let adjacency := bipartite2directed B
    let samp_weights := check_probs weights B ++ List.replicate p 0
    let feat_weights := List.replicate n 0 ++ check_probs feature_weights (transposeMat B)
    finishFit n sorted_cluster (driver algorithm verbose adjacency samp_weights feat_weights)
      (totalWeight adjacency)

/-- One complete run: construct the `BiLouvain` object, then fit it on a
biadjacency matrix, with the stored optimizer and verbosity handed to the
driver. -/
def runBiLouvain (n p : ℕ) (engine : String) (algorithm : AlgoArg)
    (resolution tol agg_tol : ℚ) (max_agg_iter : MaxIterArg) (random_state : Option ℤ)
    (verbose : Bool) (B : Fin n → Fin p → ℚ) (driver : LouvainDriver n p)
    (weights feature_weights : WeightSpec) (force_undirected sorted_cluster : Bool) :
    Except PyError FitResult :=
  match biLouvainInit engine algorithm resolution tol agg_tol max_agg_iter random_state verbose with
  | Except.error e => Except.error e
  | Except.ok st =>
      Except.ok (biLouvainFit n p st.algorithm st.verbose B driver
        weights feature_weights force_undirected sorted_cluster)

/-- A constant driver outcome, used to instantiate the oracle on concrete
inputs. -/
def constDriver (n p : ℕ) (labels : List ℕ) (k iters : ℕ) : LouvainDriver n p :=
  fun _ _ _ _ _ =>
    { labels_ := labels, n_clusters_ := k, iteration_count_ := iters,
      aggregate_graph_ := fun _ _ => 0 }

/-! ## The Aggregation Engine (spec section 4.2)

Modelled from the spec: the Aggregation Engine lives in the Louvain module,
which is not part of the reviewed sources.  Entry `(c1, c2)` of the coarse
graph is the sum of all edge weights between nodes labeled `c1` and nodes
labeled `c2` in the fine graph; the coarse weight vectors (not needed here)
sum the fine per-node weights within each cluster. -/

/-- Modelled from the spec: the coarse graph built by `aggregate(graph, labels)`. -/
def aggregate {m : ℕ} (A : Fin m → Fin m → ℚ) (labels : Fin m → ℕ) : ℕ → ℕ → ℚ :=
  fun c1 c2 => ∑ i, ∑ j, if labels i = c1 ∧ labels j = c2 then A i j else 0

/-- The cluster identifiers actually used by a labeling. -/
def clustersOf {m : ℕ} (labels : Fin m → ℕ) : Finset ℕ :=
  Finset.image labels Finset.univ

/-- Total edge weight of the coarse graph: the sum of its entries over all
cluster pairs. -/
def aggregateTotalWeight {m : ℕ} (A : Fin m → Fin m → ℚ) (labels : Fin m → ℕ) : ℚ :=
  ∑ c1 ∈ clustersOf labels, ∑ c2 ∈ clustersOf labels, aggregate A labels c1 c2

/-! ## KMeans and BiKMeans (`kmeans.py`)

The embedding method and the dense k-means routine are out-of-scope external
collaborators (spec sections 1 and 6); they are modelled as an oracle from the
requested number of clusters and the input matrix to the dense-k-means label
vector.  The membership/adjacency post-processing of the success path also
uses out-of-scope collaborators and is not modelled; the claims concern the
guard and the label assignments. -/

/-- Observable outcome of `KMeans.fit`: the `labels_` attribute and the raised
exception, if any.  On an exception the attribute keeps its previous value. -/
structure KMeansOutcome where
  labels_ : Option (List ℕ)
  error : Option PyError
deriving DecidableEq, Repr

/-- `KMeans.fit` (source lines 74-106): reject `n_clusters` larger than the
node count before the embedding is computed; otherwise embed, run dense
k-means (the oracle), optionally sort the labels, and assign `labels_`. -/
def kmeansFit (m : ℕ) (n_clusters : ℕ) (sort_clusters : Bool)
    (oracle : ℕ → (Fin m → Fin m → ℚ) → List ℕ)
    (prev_labels : Option (List ℕ)) (adjacency : Fin m → Fin m → ℚ) : KMeansOutcome :=
  if n_clusters > m then
    { labels_ := prev_labels,
      error := some (PyError.valueError "The number of clusters exceeds the number of nodes.") }
  else
    let raw := oracle n_clusters adjacency
    let labels := if sort_clusters then reindex_clusters raw else raw
    { labels_ := some labels, error := none }

/-- Observable outcome of `BiKMeans.fit`. -/
structure BiKMeansOutcome where
  labels_ : Option (List ℕ)
  labels_row_ : Option (List ℕ)
  labels_col_ : Option (List ℕ)
  error : Option PyError
deriving DecidableEq, Repr

/-- `BiKMeans.fit` (source lines 174-233): reject `n_clusters` larger than the
row count before any embedding work, whether or not `co_cluster` is set;
otherwise cluster the row embedding (or the stacked row/column embedding when
`co_cluster`), optionally sort, and split the labels at the row count when
co-clustering. -/
def bikmeansFit (n_row n_col : ℕ) (n_clusters : ℕ) (co_cluster sort_clusters : Bool)
    (oracleRow : ℕ → (Fin n_row → Fin n_col → ℚ) → List ℕ)
    (oracleCo : ℕ → (Fin n_row → Fin n_col → ℚ) → List ℕ)
    (prev : BiKMeansOutcome) (biadjacency : Fin n_row → Fin n_col → ℚ) : BiKMeansOutcome :=
  if n_clusters > n_row then
    { prev with
      error := some (PyError.valueError "The number of clusters exceeds the number of rows.") }
  else
    let raw := if co_cluster then oracleCo n_clusters biadjacency
               else oracleRow n_clusters biadjacency
    let labels := if sort_clusters then reindex_clusters raw else raw
    if co_cluster then
      { labels_ := some (labels.take n_row), labels_row_ := some (labels.take n_row),
        labels_col_ := some (labels.drop n_row), error := none }
    else
      { labels_ := some labels, labels_row_ := some labels,
        labels_col_ := prev.labels_col_, error := none }

end Sknetwork

namespace Sknetwork

/-! ## Properties of the Cluster Reindexer -/

theorem firstIndex_lt_length {L : List ℕ} {v : ℕ} (h : v ∈ L) :
    firstIndex L v < L.length :=
  List.indexOf_lt_length.mpr h

theorem get_firstIndex {L : List ℕ} {v : ℕ} (h : v ∈ L) :
    L.get ⟨firstIndex L v, firstIndex_lt_length h⟩ = v :=
  List.indexOf_get _

theorem firstIndex_inj {L : List ℕ} {v w : ℕ} (hv : v ∈ L) (hw : w ∈ L)
    (h : firstIndex L v = firstIndex L w) : v = w := by
  have hfin : (⟨firstIndex L v, firstIndex_lt_length hv⟩ : Fin L.length) =
      ⟨firstIndex L w, firstIndex_lt_length hw⟩ := Fin.ext h
  calc v = L.get ⟨firstIndex L v, firstIndex_lt_length hv⟩ := (get_firstIndex hv).symm
    _ = L.get ⟨firstIndex L w, firstIndex_lt_length hw⟩ := congrArg L.get hfin
    _ = w := get_firstIndex hw

theorem clusterBefore_irrefl (L : List ℕ) (v : ℕ) : ¬ clusterBefore L v v := by
  unfold clusterBefore; omega

theorem clusterBefore_trans {L : List ℕ} {u w v : ℕ}
    (h1 : clusterBefore L u w) (h2 : clusterBefore L w v) : clusterBefore L u v := by
  unfold clusterBefore at h1 h2 ⊢; omega

theorem clusterBefore_asymm {L : List ℕ} {v w : ℕ} (h : clusterBefore L w v) :
    ¬ clusterBefore L v w := by
  unfold clusterBefore at h ⊢; omega

theorem clusterBefore_total {L : List ℕ} {v w : ℕ} (hv : v ∈ L) (hw : w ∈ L)
    (hne : v ≠ w) : clusterBefore L v w ∨ clusterBefore L w v := by
  have hidx : firstIndex L v ≠ firstIndex L w := fun h => hne (firstIndex_inj hv hw h)
  unfold clusterBefore; omega

theorem clusterRank_lt {L : List ℕ} {v : ℕ} (hv : v ∈ L) :
    clusterRank L v < L.toFinset.card := by
  apply Finset.card_lt_card
  rw [Finset.ssubset_iff_of_subset (Finset.filter_subset _ _)]
  exact ⟨v, List.mem_toFinset.mpr hv,
    fun hmem => clusterBefore_irrefl L v (Finset.mem_filter.mp hmem).2⟩

theorem clusterRank_lt_of_before {L : List ℕ} {v w : ℕ} (hv : v ∈ L) (hw : w ∈ L)
    (h : clusterBefore L w v) : clusterRank L w < clusterRank L v := by
  apply Finset.card_lt_card
  rw [Finset.ssubset_iff_of_subset]
  · exact ⟨w, Finset.mem_filter.mpr ⟨List.mem_toFinset.mpr hw, h⟩,
      fun hmem => clusterBefore_irrefl L w (Finset.mem_filter.mp hmem).2⟩
  · intro u hu
    exact Finset.mem_filter.mpr
      ⟨(Finset.mem_filter.mp hu).1, clusterBefore_trans (Finset.mem_filter.mp hu).2 h⟩

theorem clusterRank_injOn {L : List ℕ} {v w : ℕ} (hv : v ∈ L) (hw : w ∈ L)
    (h : clusterRank L v = clusterRank L w) : v = w := by
  by_contra hne
  rcases clusterBefore_total hv hw hne with hb | hb
  · have := clusterRank_lt_of_before hw hv hb
    omega
  · have := clusterRank_lt_of_before hv hw hb
    omega

theorem clusterRank_image (L : List ℕ) :
    L.toFinset.image (clusterRank L) = Finset.range L.toFinset.card := by
  apply Finset.eq_of_subset_of_card_le
  · intro x hx
    rcases Finset.mem_image.mp hx with ⟨v, hv, rfl⟩
    exact Finset.mem_range.mpr (clusterRank_lt (List.mem_toFinset.mp hv))
  · rw [Finset.card_range,
      Finset.card_image_of_injOn (fun v hv w hw h =>
        clusterRank_injOn (List.mem_toFinset.mp hv) (List.mem_toFinset.mp hw) h)]

theorem toFinset_map_eq (l : List ℕ) (f : ℕ → ℕ) :
    (l.map f).toFinset = l.toFinset.image f := by
  have h := Multiset.toFinset_map f (l : Multiset ℕ)
  simpa using h

theorem reindex_toFinset (L : List ℕ) :
    (reindex_clusters L).toFinset = Finset.range L.toFinset.card := by
  unfold reindex_clusters
  rw [toFinset_map_eq, clusterRank_image]

theorem count_map_of_memInj {f : ℕ → ℕ} {v : ℕ} :
    ∀ {M : List ℕ}, (∀ a ∈ M, f a = f v ↔ a = v) → (M.map f).count (f v) = M.count v := by
  intro M
  induction M with
  | nil => intro _; rfl
  | cons x xs ih =>
    intro h
    have hxs : ∀ a ∈ xs, f a = f v ↔ a = v := fun a ha => h a (List.mem_cons_of_mem x ha)
    by_cases hx : x = v
    · subst hx
      rw [List.map_cons, List.count_cons_self, List.count_cons_self, ih hxs]
    · have hfx : f x ≠ f v := fun hf => hx ((h x (List.mem_cons_self x xs)).mp hf)
      rw [List.map_cons, List.count_cons_of_ne (fun hf => hfx hf.symm),
        List.count_cons_of_ne (fun hx2 => hx hx2.symm), ih hxs]

theorem indexOf_map_of_memInj {f : ℕ → ℕ} {v : ℕ} :
    ∀ {M : List ℕ}, (∀ a ∈ M, f a = f v ↔ a = v) →
      (M.map f).indexOf (f v) = M.indexOf v := by
  intro M
  induction M with
  | nil => intro _; rfl
  | cons x xs ih =>
    intro h
    have hxs : ∀ a ∈ xs, f a = f v ↔ a = v := fun a ha => h a (List.mem_cons_of_mem x ha)
    by_cases hx : x = v
    · subst hx
      rw [List.map_cons, List.indexOf_cons_self, List.indexOf_cons_self]
    · have hfx : f x ≠ f v := fun hf => hx ((h x (List.mem_cons_self x xs)).mp hf)
      rw [List.map_cons, List.indexOf_cons_ne _ hfx, List.indexOf_cons_ne _ hx, ih hxs]

theorem memInj_clusterRank {L : List ℕ} {v : ℕ} (hv : v ∈ L) :
    ∀ a ∈ L, clusterRank L a = clusterRank L v ↔ a = v :=
  fun a ha => ⟨fun h => clusterRank_injOn ha hv h, fun h => h ▸ rfl⟩

theorem clusterSize_reindex {L : List ℕ} {v : ℕ} (hv : v ∈ L) :
    clusterSize (reindex_clusters L) (clusterRank L v) = clusterSize L v :=
  count_map_of_memInj (memInj_clusterRank hv)

theorem firstIndex_reindex {L : List ℕ} {v : ℕ} (hv : v ∈ L) :
    firstIndex (reindex_clusters L) (clusterRank L v) = firstIndex L v :=
  indexOf_map_of_memInj (memInj_clusterRank hv)

theorem clusterBefore_reindex {L : List ℕ} {v w : ℕ} (hv : v ∈ L) (hw : w ∈ L) :
    clusterBefore (reindex_clusters L) (clusterRank L w) (clusterRank L v) ↔
      clusterBefore L w v := by
  unfold clusterBefore
  rw [clusterSize_reindex hv, clusterSize_reindex hw,
    firstIndex_reindex hv, firstIndex_reindex hw]

theorem clusterRank_reindex {L : List ℕ} {v : ℕ} (hv : v ∈ L) :
    clusterRank (reindex_clusters L) (clusterRank L v) = clusterRank L v := by
  have h1 : (reindex_clusters L).toFinset = L.toFinset.image (clusterRank L) :=
    toFinset_map_eq L _
  have h2 : ((reindex_clusters L).toFinset.filter
      (fun w => clusterBefore (reindex_clusters L) w (clusterRank L v))) =
      (L.toFinset.filter (fun w => clusterBefore L w v)).image (clusterRank L) := by
    rw [h1, Finset.filter_image]
    congr 1
    apply Finset.filter_congr
    intro a ha
    exact clusterBefore_reindex hv (List.mem_toFinset.mp ha)
  show ((reindex_clusters L).toFinset.filter
      (fun w => clusterBefore (reindex_clusters L) w (clusterRank L v))).card = clusterRank L v
  rw [h2, Finset.card_image_of_injOn]
  · rfl
  · intro a ha b hb hab
    exact clusterRank_injOn (List.mem_toFinset.mp (Finset.mem_filter.mp ha).1)
      (List.mem_toFinset.mp (Finset.mem_filter.mp hb).1) hab

theorem reindex_idem (L : List ℕ) :
    reindex_clusters (reindex_clusters L) = reindex_clusters L := by
  show (L.map (clusterRank L)).map (clusterRank (reindex_clusters L)) = L.map (clusterRank L)
  rw [List.map_map]
  apply List.map_congr_left
  intro a ha
  exact clusterRank_reindex ha

theorem reindex_size_le {L : List ℕ} {a b : ℕ} (ha : a ∈ reindex_clusters L)
    (hb : b ∈ reindex_clusters L) (hab : a < b) :
    clusterSize (reindex_clusters L) b ≤ clusterSize (reindex_clusters L) a := by
  rcases List.mem_map.mp ha with ⟨v, hv, rfl⟩
  rcases List.mem_map.mp hb with ⟨w, hw, rfl⟩
  rw [clusterSize_reindex hv, clusterSize_reindex hw]
  by_contra hlt
  push_neg at hlt
  have hbef : clusterBefore L w v := Or.inl hlt
  have := clusterRank_lt_of_before hv hw hbef
  omega

theorem reindex_tie {L : List ℕ} {a b : ℕ} (ha : a ∈ reindex_clusters L)
    (hb : b ∈ reindex_clusters L) (hab : a < b)
    (hsz : clusterSize (reindex_clusters L) a = clusterSize (reindex_clusters L) b) :
    firstIndex (reindex_clusters L) a < firstIndex (reindex_clusters L) b := by
  rcases List.mem_map.mp ha with ⟨v, hv, rfl⟩
  rcases List.mem_map.mp hb with ⟨w, hw, rfl⟩
  rw [clusterSize_reindex hv, clusterSize_reindex hw] at hsz
  rw [firstIndex_reindex hv, firstIndex_reindex hw]
  have hne : v ≠ w := fun h => by subst h; omega
  have hidx : firstIndex L v ≠ firstIndex L w := fun h => hne (firstIndex_inj hv hw h)
  have hnb : ¬ clusterBefore L w v := fun hbef => by
    have := clusterRank_lt_of_before hv hw hbef
    omega
  unfold clusterBefore at hnb
  omega

/-- C8: the Cluster Reindexer is idempotent; its output is a dense labeling
starting at 0 (the set of used labels is exactly `0..k-1` for `k` the number
of distinct input labels); output clusters are numbered by descending size,
with ties broken by earliest first occurrence; being a pure function of its
argument, the renumbering is deterministic. -/
theorem c8_reindex_idempotent_dense_sorted (L : List ℕ) :
    reindex_clusters (reindex_clusters L) = reindex_clusters L ∧
    (reindex_clusters L).toFinset = Finset.range L.toFinset.card ∧
    (∀ a b, a ∈ reindex_clusters L → b ∈ reindex_clusters L → a < b →
      clusterSize (reindex_clusters L) b ≤ clusterSize (reindex_clusters L) a) ∧
    (∀ a b, a ∈ reindex_clusters L → b ∈ reindex_clusters L → a < b →
      clusterSize (reindex_clusters L) a = clusterSize (reindex_clusters L) b →
      firstIndex (reindex_clusters L) a < firstIndex (reindex_clusters L) b) :=
  ⟨reindex_idem L, reindex_toFinset L,
    fun _ _ ha hb hab => reindex_size_le ha hb hab,
    fun _ _ ha hb hab hsz => reindex_tie ha hb hab hsz⟩

/-- Witness for C8 at the concrete label vectors `[5, 7, 7]` and `[3, 4]`. -/
theorem c8_witness :
    reindex_clusters (reindex_clusters [5, 7, 7]) = reindex_clusters [5, 7, 7] ∧
    clusterSize (reindex_clusters [5, 7, 7]) 1 ≤ clusterSize (reindex_clusters [5, 7, 7]) 0 ∧
    firstIndex (reindex_clusters [3, 4]) 0 < firstIndex (reindex_clusters [3, 4]) 1 :=
  ⟨(c8_reindex_idempotent_dense_sorted [5, 7, 7]).1,
   (c8_reindex_idempotent_dense_sorted [5, 7, 7]).2.2.1 0 1 (by decide) (by decide) (by decide),
   (c8_reindex_idempotent_dense_sorted [3, 4]).2.2.2 0 1 (by decide) (by decide) (by decide)
     (by decide)⟩

/-! ## Structure of `BiLouvain.fit` -/

theorem biLouvainFit_eq (n p : ℕ) (algorithm : Optimizer) (verbose : Bool)
    (B : Fin n → Fin p → ℚ) (driver : LouvainDriver n p) (w fw : WeightSpec)
    (fu sc : Bool) :
    biLouvainFit n p algorithm verbose B driver w fw fu sc =
      finishFit n sc (driverResultOf n p algorithm verbose B driver w fw fu)
        (totalWeight (constructedAdjacency B fu)) := by
  cases fu <;> rfl

theorem finishFit_labels (n : ℕ) (sc : Bool) (res : LouvainResult) (t : ℚ) :
    (finishFit n sc res t).labels_ =
      (if sc then reindex_clusters res.labels_ else res.labels_).take n := rfl

theorem finishFit_feature_labels (n : ℕ) (sc : Bool) (res : LouvainResult) (t : ℚ) :
    (finishFit n sc res t).feature_labels_ =
      (if sc then reindex_clusters res.labels_ else res.labels_).drop n := rfl

theorem finishFit_n_clusters (n : ℕ) (sc : Bool) (res : LouvainResult) (t : ℚ) :
    (finishFit n sc res t).n_clusters_ = res.n_clusters_ := rfl

theorem finishFit_concat (n : ℕ) (sc : Bool) (res : LouvainResult) (t : ℚ) :
    (finishFit n sc res t).labels_ ++ (finishFit n sc res t).feature_labels_ =
      (if sc then reindex_clusters res.labels_ else res.labels_) :=
  List.take_append_drop n _

/-- C2 counterexample: on a 1-by-2 biadjacency matrix with `sorted_cluster =
true` (the default) and a driver returning the raw label vector `[0, 1, 1]`,
the concatenation of `labels_` and `feature_labels_` is the reindexed vector
`[1, 0, 0]`, not the driver's raw label vector. -/
theorem c2_counterexample :
    ¬ ((biLouvainFit 1 2 (GreedyModularity 1 1 "python") false (fun _ _ => 1)
          (constDriver 1 2 [0, 1, 1] 2 1) WeightSpec.degree WeightSpec.degree
          false true).labels_ ++
        (biLouvainFit 1 2 (GreedyModularity 1 1 "python") false (fun _ _ => 1)
          (constDriver 1 2 [0, 1, 1] 2 1) WeightSpec.degree WeightSpec.degree
          false true).feature_labels_ =
        (driverResultOf 1 2 (GreedyModularity 1 1 "python") false (fun _ _ => 1)
          (constDriver 1 2 [0, 1, 1] 2 1) WeightSpec.degree WeightSpec.degree
          false).labels_) := by
  decide

/-- C2 (amended): after `BiLouvain.fit` on an `n`-by-`p` biadjacency matrix,
`labels_` has length `n`, `feature_labels_` has length `p`, and their
concatenation reproduces the label vector that was split: the driver's raw
label vector when `sorted_cluster` is false, and its reindexing when
`sorted_cluster` is true. -/
theorem c2_amended_split_consistency (n p : ℕ) (algorithm : Optimizer) (verbose : Bool)
    (B : Fin n → Fin p → ℚ) (driver : LouvainDriver n p) (w fw : WeightSpec)
    (fu sc : Bool)
    (hlen : (driverResultOf n p algorithm verbose B driver w fw fu).labels_.length = n + p) :
    (biLouvainFit n p algorithm verbose B driver w fw fu sc).labels_.length = n ∧
    (biLouvainFit n p algorithm verbose B driver w fw fu sc).feature_labels_.length = p ∧
    (biLouvainFit n p algorithm verbose B driver w fw fu sc).labels_ ++
      (biLouvainFit n p algorithm verbose B driver w fw fu sc).feature_labels_ =
      (if sc then
        reindex_clusters (driverResultOf n p algorithm verbose B driver w fw fu).labels_
       else (driverResultOf n p algorithm verbose B driver w fw fu).labels_) := by
  have hlab : (if sc then
      reindex_clusters (driverResultOf n p algorithm verbose B driver w fw fu).labels_
      else (driverResultOf n p algorithm verbose B driver w fw fu).labels_).length = n + p := by
    cases sc <;> simp [reindex_clusters, hlen]
  refine ⟨?_, ?_, ?_⟩
  · rw [biLouvainFit_eq, finishFit_labels, List.length_take, hlab]
    omega
  · rw [biLouvainFit_eq, finishFit_feature_labels, List.length_drop, hlab]
    omega
  · rw [biLouvainFit_eq, finishFit_concat]

/-- Witness for C2 (amended) on a concrete 1-by-2 biadjacency matrix. -/
theorem c2_amended_witness :
    (biLouvainFit 1 2 (GreedyModularity 1 1 "python") false (fun _ _ => 1)
        (constDriver 1 2 [0, 1, 1] 2 1) WeightSpec.degree WeightSpec.degree
        false true).labels_.length = 1 ∧
    (biLouvainFit 1 2 (GreedyModularity 1 1 "python") false (fun _ _ => 1)
        (constDriver 1 2 [0, 1, 1] 2 1) WeightSpec.degree WeightSpec.degree
        false true).feature_labels_.length = 2 :=
  ⟨(c2_amended_split_consistency 1 2 (GreedyModularity 1 1 "python") false (fun _ _ => 1)
      (constDriver 1 2 [0, 1, 1] 2 1) WeightSpec.degree WeightSpec.degree
      false true (by decide)).1,
   (c2_amended_split_consistency 1 2 (GreedyModularity 1 1 "python") false (fun _ _ => 1)
      (constDriver 1 2 [0, 1, 1] 2 1) WeightSpec.degree WeightSpec.degree
      false true (by decide)).2.1⟩

/-- C3: after `BiLouvain.fit`, the exposed `aggregate_graph_` is the Louvain
driver's aggregate graph multiplied entrywise by the total edge weight of the
adjacency constructed over the `n + p` nodes: the undirected symmetrisation
when `force_undirected` is true, the directed construction otherwise. -/
theorem c3_aggregate_graph_rescaling (n p : ℕ) (algorithm : Optimizer) (verbose : Bool)
    (B : Fin n → Fin p → ℚ) (driver : LouvainDriver n p) (w fw : WeightSpec)
    (fu sc : Bool) :
    (biLouvainFit n p algorithm verbose B driver w fw fu sc).aggregate_graph_ =
      fun c1 c2 =>
        (driverResultOf n p algorithm verbose B driver w fw fu).aggregate_graph_ c1 c2 *
          totalWeight (constructedAdjacency B fu) := by
  cases fu <;> rfl

/-- C4: with `force_undirected = false`, `BiLouvain.fit` invokes the Louvain
driver on the directed construction over `n + p` nodes with the row-side
weights zero-padded over the last `p` positions and the column-side weights
zero-padded over the first `n` positions; and the directed construction has
edges only between the row block and the column block (the biadjacency in the
row-to-column block, its transpose in the column-to-row block, zeros on the
two diagonal blocks). -/
theorem c4_directed_construction (n p : ℕ) (algorithm : Optimizer) (verbose : Bool)
    (B : Fin n → Fin p → ℚ) (driver : LouvainDriver n p) (w fw : WeightSpec) (sc : Bool) :
    (biLouvainFit n p algorithm verbose B driver w fw false sc =
      finishFit n sc
        (driver algorithm verbose (bipartite2directed B)
          (check_probs w B ++ List.replicate p 0)
          (List.replicate n 0 ++ check_probs fw (transposeMat B)))
        (totalWeight (bipartite2directed B))) ∧
    (∀ i j : Fin (n + p),
      ((i : ℕ) < n → (j : ℕ) < n → bipartite2directed B i j = 0) ∧
      (n ≤ (i : ℕ) → n ≤ (j : ℕ) → bipartite2directed B i j = 0) ∧
      (∀ (hi : (i : ℕ) < n) (hj : n ≤ (j : ℕ)),
        bipartite2directed B i j = B ⟨i, hi⟩ ⟨(j : ℕ) - n, by have h := j.isLt; omega⟩) ∧
      (∀ (hi : n ≤ (i : ℕ)) (hj : (j : ℕ) < n),
        bipartite2directed B i j = B ⟨j, hj⟩ ⟨(i : ℕ) - n, by have h := i.isLt; omega⟩)) := by
  refine ⟨rfl, fun i j => ⟨?_, ?_, ?_, ?_⟩⟩
  · intro h1 h2
    simp only [bipartite2directed]
    rw [dif_pos h1, dif_pos h2]
  · intro h1 h2
    simp only [bipartite2directed]
    rw [dif_neg (by omega), dif_neg (by omega)]
  · intro h1 h2
    simp only [bipartite2directed]
    rw [dif_pos h1, dif_neg (by omega)]
  · intro h1 h2
    simp only [bipartite2directed]
    rw [dif_neg (by omega), dif_pos h2]

/-- Witness for C4: block entries of the directed construction of the 1-by-1
all-twos biadjacency matrix. -/
theorem c4_witness :
    bipartite2directed (fun _ _ => (2 : ℚ)) (0 : Fin (1 + 1)) (1 : Fin (1 + 1)) = 2 ∧
    bipartite2directed (fun _ _ => (2 : ℚ)) (0 : Fin (1 + 1)) (0 : Fin (1 + 1)) = 0 :=
  ⟨(((c4_directed_construction 1 1 (GreedyModularity 1 1 "python") false (fun _ _ => 2)
        (constDriver 1 1 [0, 0] 1 0) WeightSpec.degree WeightSpec.degree true).2 0 1).2.2.1
      (by decide) (by decide)).trans rfl,
   ((c4_directed_construction 1 1 (GreedyModularity 1 1 "python") false (fun _ _ => 2)
        (constDriver 1 1 [0, 0] 1 0) WeightSpec.degree WeightSpec.degree true).2 0 0).1
      (by decide) (by decide)⟩

/-- C6: after `BiLouvain.fit` with `sorted_cluster = true`, every one of the
`n + p` nodes carries exactly one label (the concatenated labeling has length
`n + p`), and the set of distinct labels appearing in `labels_` followed by
`feature_labels_` is exactly `0..n_clusters_-1`.  The Louvain driver is
assumed to return one label per node and to report the number of distinct
labels, per its spec contract. -/
theorem c6_partition_completeness (n p : ℕ) (algorithm : Optimizer) (verbose : Bool)
    (B : Fin n → Fin p → ℚ) (driver : LouvainDriver n p) (w fw : WeightSpec) (fu : Bool)
    (hlen : (driverResultOf n p algorithm verbose B driver w fw fu).labels_.length = n + p)
    (hk : (driverResultOf n p algorithm verbose B driver w fw fu).n_clusters_ =
      (driverResultOf n p algorithm verbose B driver w fw fu).labels_.toFinset.card) :
    ((biLouvainFit n p algorithm verbose B driver w fw fu true).labels_ ++
      (biLouvainFit n p algorithm verbose B driver w fw fu true).feature_labels_).length =
      n + p ∧
    ((biLouvainFit n p algorithm verbose B driver w fw fu true).labels_ ++
      (biLouvainFit n p algorithm verbose B driver w fw fu true).feature_labels_).toFinset =
      Finset.range (biLouvainFit n p algorithm verbose B driver w fw fu true).n_clusters_ := by
  rw [biLouvainFit_eq, finishFit_concat, finishFit_n_clusters]
  constructor
  · show (reindex_clusters (driverResultOf n p algorithm verbose B driver w fw fu).labels_).length
      = n + p
    simp [reindex_clusters, hlen]
  · show (reindex_clusters (driverResultOf n p algorithm verbose B driver w fw fu).labels_).toFinset
      = Finset.range (driverResultOf n p algorithm verbose B driver w fw fu).n_clusters_
    rw [reindex_toFinset, hk]

/-- Witness for C6 on a concrete 1-by-2 biadjacency matrix with a driver
returning labels `[0, 1, 1]` and reporting 2 clusters. -/
theorem c6_witness :
    ((biLouvainFit 1 2 (GreedyModularity 1 1 "python") false (fun _ _ => 1)
        (constDriver 1 2 [0, 1, 1] 2 1) WeightSpec.degree WeightSpec.degree
        false true).labels_ ++
      (biLouvainFit 1 2 (GreedyModularity 1 1 "python") false (fun _ _ => 1)
        (constDriver 1 2 [0, 1, 1] 2 1) WeightSpec.degree WeightSpec.degree
        false true).feature_labels_).length = 1 + 2 ∧
    ((biLouvainFit 1 2 (GreedyModularity 1 1 "python") false (fun _ _ => 1)
        (constDriver 1 2 [0, 1, 1] 2 1) WeightSpec.degree WeightSpec.degree
        false true).labels_ ++
      (biLouvainFit 1 2 (GreedyModularity 1 1 "python") false (fun _ _ => 1)
        (constDriver 1 2 [0, 1, 1] 2 1) WeightSpec.degree WeightSpec.degree
        false true).feature_labels_).toFinset =
      Finset.range (biLouvainFit 1 2 (GreedyModularity 1 1 "python") false (fun _ _ => 1)
        (constDriver 1 2 [0, 1, 1] 2 1) WeightSpec.degree WeightSpec.degree
        false true).n_clusters_ :=
  c6_partition_completeness 1 2 (GreedyModularity 1 1 "python") false (fun _ _ => 1)
    (constDriver 1 2 [0, 1, 1] 2 1) WeightSpec.degree WeightSpec.degree false
    (by decide) (by decide)

/-- C7: determinism.  A run is a pure function of the biadjacency matrix, the
parameters, and the seed (`random_state`), which is threaded explicitly and
stored; no hidden state exists in the embedding, so two runs on identical
input produce identical labels, feature labels, score and aggregate graph. -/
theorem c7_determinism (n p : ℕ) (engine : String) (algorithm : AlgoArg)
    (resolution tol agg_tol : ℚ) (max_agg_iter : MaxIterArg) (random_state : Option ℤ)
    (verbose : Bool) (B : Fin n → Fin p → ℚ) (driver : LouvainDriver n p)
    (w fw : WeightSpec) (fu sc : Bool) :
    runBiLouvain n p engine algorithm resolution tol agg_tol max_agg_iter random_state
        verbose B driver w fw fu sc =
      runBiLouvain n p engine algorithm resolution tol agg_tol max_agg_iter random_state
        verbose B driver w fw fu sc ∧
    (runBiLouvain n p engine algorithm resolution tol agg_tol max_agg_iter random_state
        verbose B driver w fw fu sc).map
        (fun r => (r.labels_, r.feature_labels_, r.score_, r.aggregate_graph_)) =
      (runBiLouvain n p engine algorithm resolution tol agg_tol max_agg_iter random_state
        verbose B driver w fw fu sc).map
        (fun r => (r.labels_, r.feature_labels_, r.score_, r.aggregate_graph_)) :=
  ⟨rfl, rfl⟩

/-! ## Constructor validation (`BiLouvain.__init__`) -/

/-- C5: constructing `BiLouvain` with a `max_agg_iter` whose type is not `int`
raises a `TypeError` immediately (within `__init__`, before any graph or
matrix exists), whether the algorithm was `'default'` or an `Optimizer`
instance; with an `int` argument (the other parameters being valid)
construction succeeds and `max_agg_iter` is stored unchanged. -/
theorem c5_max_agg_iter_type_check (engine e : String) (resolution tol agg_tol : ℚ)
    (random_state : Option ℤ) (verbose : Bool) (o : Optimizer)
    (hE : check_engine engine = Except.ok e) :
    (∀ d, biLouvainInit engine (AlgoArg.str "default") resolution tol agg_tol
        (MaxIterArg.nonInt d) random_state verbose =
      Except.error
        (PyError.typeError "The maximum number of iterations must be an integer.")) ∧
    (∀ d, biLouvainInit engine (AlgoArg.optimizer o) resolution tol agg_tol
        (MaxIterArg.nonInt d) random_state verbose =
      Except.error
        (PyError.typeError "The maximum number of iterations must be an integer.")) ∧
    (∀ m : ℤ, (biLouvainInit engine (AlgoArg.str "default") resolution tol agg_tol
        (MaxIterArg.int m) random_state verbose).map (fun st => st.max_agg_iter) =
      Except.ok m) ∧
    (∀ m : ℤ, (biLouvainInit engine (AlgoArg.optimizer o) resolution tol agg_tol
        (MaxIterArg.int m) random_state verbose).map (fun st => st.max_agg_iter) =
      Except.ok m) := by
  refine ⟨fun d => ?_, fun d => rfl, fun m => ?_, fun m => ?_⟩
  · unfold biLouvainInit
    rw [hE]
    rfl
  · unfold biLouvainInit
    rw [hE]
    rfl
  · unfold biLouvainInit
    rw [hE]
    rfl

/-- Witness for C5 with the valid engine `'python'`. -/
theorem c5_witness :
    biLouvainInit "python" (AlgoArg.str "default") 1 1 1 (MaxIterArg.nonInt "float") none
        false =
      Except.error
        (PyError.typeError "The maximum number of iterations must be an integer.") ∧
    (biLouvainInit "python" (AlgoArg.str "default") 1 1 1 (MaxIterArg.int (-5)) none
        false).map (fun st => st.max_agg_iter) = Except.ok (-5) :=
  ⟨(c5_max_agg_iter_type_check "python" "python" 1 1 1 none false
      (GreedyModularity 1 1 "python") rfl).1 "float",
   (c5_max_agg_iter_type_check "python" "python" 1 1 1 none false
      (GreedyModularity 1 1 "python") rfl).2.2.1 (-5)⟩

/-- C9: constructing `BiLouvain` with an `algorithm` that is neither the
string `'default'` nor an `Optimizer` instance raises a `TypeError` inside
`__init__`, before any graph work; an `Optimizer` instance is accepted and
stored as the algorithm, and `'default'` selects the greedy modularity
optimizer built from the resolution, tolerance and validated engine. -/
theorem c9_algorithm_type_check (engine e : String) (resolution tol agg_tol : ℚ)
    (m : ℤ) (random_state : Option ℤ) (verbose : Bool)
    (hE : check_engine engine = Except.ok e) :
    (∀ s, s ≠ "default" → biLouvainInit engine (AlgoArg.str s) resolution tol agg_tol
        (MaxIterArg.int m) random_state verbose =
      Except.error (PyError.typeError "Algorithm must be default or a valid algorithm.")) ∧
    (biLouvainInit engine AlgoArg.otherObject resolution tol agg_tol
        (MaxIterArg.int m) random_state verbose =
      Except.error (PyError.typeError "Algorithm must be default or a valid algorithm.")) ∧
    (∀ o : Optimizer, (biLouvainInit engine (AlgoArg.optimizer o) resolution tol agg_tol
        (MaxIterArg.int m) random_state verbose).map (fun st => st.algorithm) =
      Except.ok o) ∧
    ((biLouvainInit engine (AlgoArg.str "default") resolution tol agg_tol
        (MaxIterArg.int m) random_state verbose).map (fun st => st.algorithm) =
      Except.ok (GreedyModularity resolution tol e)) := by
  refine ⟨fun s hs => ?_, rfl, fun o => ?_, ?_⟩
  · unfold biLouvainInit
    simp [hs]
  · unfold biLouvainInit
    rw [hE]
    rfl
  · unfold biLouvainInit
    rw [hE]
    rfl

/-- Witness for C9 with the valid engine `'python'`. -/
theorem c9_witness :
    biLouvainInit "python" (AlgoArg.str "louvain") 1 1 1 (MaxIterArg.int 3) none false =
      Except.error (PyError.typeError "Algorithm must be default or a valid algorithm.") ∧
    (biLouvainInit "python" (AlgoArg.str "default") 1 1 1 (MaxIterArg.int 3) none
        false).map (fun st => st.algorithm) = Except.ok (GreedyModularity 1 1 "python") :=
  ⟨(c9_algorithm_type_check "python" "python" 1 1 1 3 none false rfl).1 "louvain"
      (by decide),
   (c9_algorithm_type_check "python" "python" 1 1 1 3 none false rfl).2.2.2⟩

/-! ## Weight conservation of the Aggregation Engine -/

theorem four_sum_swap {m : ℕ} (S : Finset ℕ) (t : ℕ → ℕ → Fin m → Fin m → ℚ) :
    (∑ c1 ∈ S, ∑ c2 ∈ S, ∑ i, ∑ j, t c1 c2 i j) =
      ∑ i, ∑ j, ∑ c1 ∈ S, ∑ c2 ∈ S, t c1 c2 i j :=
  calc (∑ c1 ∈ S, ∑ c2 ∈ S, ∑ i, ∑ j, t c1 c2 i j)
      = ∑ c1 ∈ S, ∑ i, ∑ c2 ∈ S, ∑ j, t c1 c2 i j :=
        Finset.sum_congr rfl (fun _ _ => Finset.sum_comm)
    _ = ∑ i, ∑ c1 ∈ S, ∑ c2 ∈ S, ∑ j, t c1 c2 i j := Finset.sum_comm
    _ = ∑ i, ∑ c1 ∈ S, ∑ j, ∑ c2 ∈ S, t c1 c2 i j :=
        Finset.sum_congr rfl (fun _ _ => Finset.sum_congr rfl (fun _ _ => Finset.sum_comm))
    _ = ∑ i, ∑ j, ∑ c1 ∈ S, ∑ c2 ∈ S, t c1 c2 i j :=
        Finset.sum_congr rfl (fun _ _ => Finset.sum_comm)

/-- C1: weight conservation.  For every weighted graph with non-negative
entries and every labeling of its nodes, the total edge weight of the coarse
graph built by the Aggregation Engine equals the total edge weight of the
input graph, exactly. -/
theorem c1_aggregate_weight_conservation {m : ℕ} (A : Fin m → Fin m → ℚ)
    (labels : Fin m → ℕ) (hpos : ∀ i j, 0 ≤ A i j) :
    aggregateTotalWeight A labels = totalWeight A := by
  have key : ∀ i j : Fin m,
      (∑ c1 ∈ clustersOf labels, ∑ c2 ∈ clustersOf labels,
        if labels i = c1 ∧ labels j = c2 then A i j else 0) = A i j := by
    intro i j
    have himem : labels i ∈ clustersOf labels :=
      Finset.mem_image_of_mem labels (Finset.mem_univ i)
    have hjmem : labels j ∈ clustersOf labels :=
      Finset.mem_image_of_mem labels (Finset.mem_univ j)
    have step : ∀ c1 ∈ clustersOf labels,
        (∑ c2 ∈ clustersOf labels, if labels i = c1 ∧ labels j = c2 then A i j else 0) =
          (if labels i = c1 then A i j else 0) := by
      intro c1 _
      by_cases hc : labels i = c1
      · rw [if_pos hc]
        have hinner : ∀ c2 ∈ clustersOf labels,
            (if labels i = c1 ∧ labels j = c2 then A i j else 0) =
              (if labels j = c2 then A i j else 0) := by
          intro c2 _
          simp [hc]
        rw [Finset.sum_congr rfl hinner,
          Finset.sum_ite_eq (clustersOf labels) (labels j) (fun _ => A i j), if_pos hjmem]
      · rw [if_neg hc]
        apply Finset.sum_eq_zero
        intro c2 _
        exact if_neg (fun hand => hc hand.1)
    rw [Finset.sum_congr rfl step,
      Finset.sum_ite_eq (clustersOf labels) (labels i) (fun _ => A i j), if_pos himem]
  have h4 := four_sum_swap (clustersOf labels)
    (fun c1 c2 i j => if labels i = c1 ∧ labels j = c2 then A i j else 0)
  exact h4.trans
    (Finset.sum_congr rfl (fun i _ => Finset.sum_congr rfl (fun j _ => key i j)))

/-- Witness for C1 on the all-ones graph over two nodes, each node its own
cluster. -/
theorem c1_witness :
    (∀ i j : Fin 2, (0 : ℚ) ≤ (fun _ _ : Fin 2 => (1 : ℚ)) i j) ∧
    aggregateTotalWeight (fun _ _ : Fin 2 => (1 : ℚ)) (fun i => (i : ℕ)) =
      totalWeight (fun _ _ : Fin 2 => (1 : ℚ)) :=
  ⟨fun _ _ => zero_le_one,
   c1_aggregate_weight_conservation (fun _ _ => 1) (fun i => (i : ℕ))
     (fun _ _ => zero_le_one)⟩

/-! ## The KMeans and BiKMeans guards -/

/-- C10: `KMeans.fit` raises a `ValueError` whenever `n_clusters` exceeds the
number of nodes, for every embedding/k-means oracle (so before any embedding
is computed) and leaving `labels_` at its previous value; `BiKMeans.fit`
raises a `ValueError` whenever `n_clusters` exceeds the number of rows, also
when `co_cluster` is true, likewise before any embedding work and leaving the
label attributes unchanged. -/
theorem c10_n_clusters_guard :
    (∀ (m n_clusters : ℕ) (sort_clusters : Bool)
        (oracle : ℕ → (Fin m → Fin m → ℚ) → List ℕ)
        (prev : Option (List ℕ)) (A : Fin m → Fin m → ℚ),
      n_clusters > m →
        kmeansFit m n_clusters sort_clusters oracle prev A =
          { labels_ := prev,
            error := some
              (PyError.valueError "The number of clusters exceeds the number of nodes.") }) ∧
    (∀ (n_row n_col n_clusters : ℕ) (co_cluster sort_clusters : Bool)
        (oracleRow oracleCo : ℕ → (Fin n_row → Fin n_col → ℚ) → List ℕ)
        (prev : BiKMeansOutcome) (B : Fin n_row → Fin n_col → ℚ),
      n_clusters > n_row →
        bikmeansFit n_row n_col n_clusters co_cluster sort_clusters oracleRow oracleCo
            prev B =
          { prev with
            error := some
              (PyError.valueError "The number of clusters exceeds the number of rows.") }) := by
  constructor
  · intro m k sc oracle prev A h
    unfold kmeansFit
    rw [if_pos h]
  · intro nr nc k co sc o1 o2 prev B h
    unfold bikmeansFit
    rw [if_pos h]

/-- Witness for C10: three clusters requested on a two-node graph, and five
clusters on a two-row biadjacency matrix with `co_cluster = true`. -/
theorem c10_witness :
    kmeansFit 2 3 true (fun _ _ => [0, 1]) (some [9]) (fun _ _ => 1) =
      { labels_ := some [9],
        error := some
          (PyError.valueError "The number of clusters exceeds the number of nodes.") } ∧
    bikmeansFit 2 3 5 true true (fun _ _ => [0]) (fun _ _ => [0])
        { labels_ := none, labels_row_ := none, labels_col_ := some [4], error := none }
        (fun _ _ => 1) =
      { labels_ := none, labels_row_ := none, labels_col_ := some [4],
        error := some
          (PyError.valueError "The number of clusters exceeds the number of rows.") } :=
  ⟨c10_n_clusters_guard.1 2 3 true (fun _ _ => [0, 1]) (some [9]) (fun _ _ => 1)
      (by decide),
   c10_n_clusters_guard.2 2 3 5 true true (fun _ _ => [0]) (fun _ _ => [0])
      { labels_ := none, labels_row_ := none, labels_col_ := some [4], error := none }
      (fun _ _ => 1) (by decide)⟩

end Sknetwork
